import Mathlib

/-!
Shallow embedding of the connection engine in `src/http_server.rs` of `may_minihttp`.

The engine owns: the nonblocking read and write helpers (`nonblock_read`,
`nonblock_write`), the buffer reserve policy (`reserve_buf`), the per-connection
decode/dispatch/encode/write loop (`each_connection_loop`), the error fallback
(`internal_error_rsp`) and the listener accept loop of `HttpServiceFactory::start`.

The HTTP codec (`request.rs` / `response.rs`) is part of the crate but not under
`src/`; following the specification it is treated as a boundary: `decode` and
`encode` are parameters of the embedding, constrained in each theorem by the
contract the specification states for them, and the few `Response` operations the
engine itself calls are modelled from the specification text.

Sockets are modelled by the sequence of results the underlying `read`/`write`
calls produce: a `ReadEvent` is one result of `stream.read` (the bytes delivered,
or an error), a `WriteEvent` is one result of `stream.write` (the count of bytes
accepted, or an error). The byte type is `Nat`.
-/

namespace MayMinihttp

/-- Model of `std::io::ErrorKind`, keeping only the distinctions the server makes. -/
inductive IOErrorKind where
  | wouldBlock
  | brokenPipe
  | other
deriving DecidableEq

/-- Model of `std::io::Error`: a kind together with the textual description that
`e.to_string()` produces. -/
structure IOError where
  kind : IOErrorKind
  msg : String
deriving DecidableEq

/-- `e.to_string()` on the model of `std::io::Error`. -/
def IOError.toString (e : IOError) : String := e.msg

instance {ε α : Type} [DecidableEq ε] [DecidableEq α] : DecidableEq (Except ε α) :=
  fun x y =>
    match x, y with
    | .error a, .error b =>
      if h : a = b then .isTrue (by rw [h])
      else .isFalse (fun hc => h (Except.error.inj hc))
    | .error _, .ok _ => .isFalse (fun hc => Except.noConfusion hc)
    | .ok _, .error _ => .isFalse (fun hc => Except.noConfusion hc)
    | .ok a, .ok b =>
      if h : a = b then .isTrue (by rw [h])
      else .isFalse (fun hc => h (Except.ok.inj hc))

/-- Bytes of a string, the model of `str::as_bytes` at the abstraction level of
this embedding. -/
def strBytes (s : String) : List Nat := s.data.map Char.toNat

/-- Modelled from the spec: `request.rs` is not under `src/`. Section 3 describes a
decoded request as opaque data together with its consumed length, the number of
leading bytes the frame occupied in the request buffer. The model carries the
frame bytes; the consumed length is their count. -/
structure Request where
  data : List Nat
deriving DecidableEq

/-- `req.len()`: the consumed length of a decoded frame. -/
def Request.len (r : Request) : Nat := r.data.length

/-- Modelled from the spec: `response.rs` is not under `src/`. Sections 3 and 4.3
describe a response as a status line, headers, and a body produced into the
body-scratch buffer. -/
structure Response where
  status : String × String
  headers : List String
  body : List Nat
deriving DecidableEq

/-- Modelled from the spec: `Response::new(&mut body_buf)` hands the service a
fresh scoped body buffer, cleared before use (section 4.3), with a default
success status line. -/
def Response.new (_buf : List Nat) : Response :=
  { status := ("200", "Ok"), headers := [], body := [] }

/-- Modelled from the spec: `Response::status_code`, as called by
`internal_error_rsp`. -/
def Response.status_code (r : Response) (code msg : String) : Response :=
  { r with status := (code, msg) }

/-- Modelled from the spec: `rsp.body_mut().extend_from_slice(bs)`. -/
def Response.extend_body (r : Response) (bs : List Nat) : Response :=
  { r with body := r.body ++ bs }

/-- `internal_error_rsp` (src/http_server.rs lines 72-81): clear the body buffer,
build a response with status `500 Internal Server Error` whose body is the
textual description of the error. -/
def internal_error_rsp (e : IOError) (_buf : List Nat) : Response :=
  ((Response.new []).status_code "500" "Internal Server Error").extend_body
    (strBytes e.toString)

/-- One call to `stream.read` inside `nonblock_read`: `Except.ok chunk` is a read
that returned `chunk.length` bytes, namely `chunk`; `Except.error` is a failed
read. -/
abbrev ReadEvent := Except IOError (List Nat)

/-- One call to `stream.write` inside `nonblock_write`: `Except.ok n` is a write
that accepted `n` bytes; `Except.error` is a failed write. -/
abbrev WriteEvent := Except IOError Nat

/-- The error `io::Error::new(io::ErrorKind::BrokenPipe, "closed")` the server
builds on a zero-byte read or write. -/
def brokenPipeClosed : IOError := { kind := IOErrorKind.brokenPipe, msg := "closed" }

/-- The inner loop of `nonblock_read` (src/http_server.rs lines 88-96): while the
free space `free` is not exhausted, take the next read result; zero bytes is the
terminal `BrokenPipe` error, a positive count accumulates and loops, `WouldBlock`
stops, any other error propagates. An exhausted event list stops the loop. -/
def nonblock_read_go (free : Nat) :
    List ReadEvent → Nat → List Nat → Except IOError (Nat × List Nat)
  | [], read_cnt, acc => .ok (read_cnt, acc)
  | ev :: rest, read_cnt, acc =>
    if read_cnt < free then
      match ev with
      | .ok chunk =>
        if chunk = [] then .error brokenPipeClosed
        else nonblock_read_go free rest (read_cnt + chunk.length) (acc ++ chunk)
      | .error err =>
        if err.kind = IOErrorKind.wouldBlock then .ok (read_cnt, acc)
        else .error err
    else .ok (read_cnt, acc)

/-- `nonblock_read` (src/http_server.rs lines 85-100): read into the free tail of
`req_buf` (of size `free`), then commit the bytes read (`advance_mut`). Returns
the byte count and the grown buffer, or the propagated error. -/
def nonblock_read (events : List ReadEvent) (free : Nat) (req_buf : List Nat) :
    Except IOError (Nat × List Nat) :=
  match nonblock_read_go free events 0 [] with
  | .ok (read_cnt, acc) => .ok (read_cnt, req_buf ++ acc)
  | .error e => .error e

/-- The inner loop of `nonblock_write` (src/http_server.rs lines 111-118): while
not all `len` bytes are written, take the next write result; zero bytes written
is the terminal `BrokenPipe` error, a positive count accumulates and loops,
`WouldBlock` stops, any other error propagates. -/
def nonblock_write_go (len : Nat) : List WriteEvent → Nat → Except IOError Nat
  | [], written => .ok written
  | ev :: rest, written =>
    if written < len then
      match ev with
      | .ok n =>
        if n = 0 then .error brokenPipeClosed
        else nonblock_write_go len rest (written + n)
      | .error err =>
        if err.kind = IOErrorKind.wouldBlock then .ok written
        else .error err
    else .ok written

/-- `nonblock_write` (src/http_server.rs lines 104-121): an empty buffer returns
`Ok(0)` at once; otherwise the written count is drained from the front of the
buffer (`advance`). Returns the written count and the remaining buffer, or the
propagated error. -/
def nonblock_write (events : List WriteEvent) (write_buf : List Nat) :
    Except IOError (Nat × List Nat) :=
  let len := write_buf.length
  if len = 0 then .ok (0, write_buf)
  else
    match nonblock_write_go len events 0 with
    | .ok written => .ok (written, write_buf.drop written)
    | .error e => .error e

/-- `BUF_LEN` (src/http_server.rs line 123). -/
def BUF_LEN : Nat := 4096 * 8

/-- View of a `BytesMut` allocation: `off` is the consumed offset into the
allocation (advanced past bytes), `len` the readable bytes, `allocCap` the size
of the allocation. `BytesMut::capacity()` reports `allocCap - off`. -/
structure BytesBuf where
  off : Nat
  len : Nat
  allocCap : Nat
deriving DecidableEq

/-- `BytesMut::capacity()`. -/
def BytesBuf.capacity (b : BytesBuf) : Nat := b.allocCap - b.off

/-- `BytesMut::reserve(additional)`, modelled from the documented behaviour of the
`bytes` crate: if the free space already covers `additional`, do nothing; else,
if the requested capacity `len + additional` fits in the existing allocation,
reclaim the consumed front by shifting the readable bytes back to the start of
the allocation; else reallocate with at least the requested capacity (the model
takes exactly the requested capacity). -/
def BytesBuf.reserve (b : BytesBuf) (additional : Nat) : BytesBuf :=
  if additional ≤ b.capacity - b.len then b
  else if b.len + additional ≤ b.allocCap then { b with off := 0 }
  else { off := 0, len := b.len, allocCap := b.len + additional }

/-- `reserve_buf` (src/http_server.rs lines 124-130): grow only when
`capacity() < 1024`, requesting `BUF_LEN - capacity()` additional bytes. -/
def reserve_buf (buf : BytesBuf) : BytesBuf :=
  if buf.capacity < 1024 then buf.reserve (BUF_LEN - buf.capacity) else buf

/-- State of one connection inside `each_connection_loop`: the three buffers, and
the allocation view (`req_off`, `req_alloc`) of the request buffer, the only one
`reserve_buf` is applied to. -/
structure ConnState where
  req_buf : List Nat
  req_off : Nat
  req_alloc : Nat
  rsp_buf : List Nat
  body_buf : List Nat
deriving DecidableEq

/-- The decode boundary, section 6: `decode(buffer) -> io::Result<Option<Request>>`. -/
abbrev Decode := List Nat → Except IOError (Option Request)

/-- The encode boundary, section 6: the wire bytes `encode` appends for one
response. -/
abbrev Encode := Response → List Nat

/-- The service boundary, section 6: `Service.call` takes the service state, the
request, and a fresh response; it returns the new service state and either the
filled response or an error. -/
abbrev ServiceCall (σ : Type) := σ → Request → Response → σ × Except IOError Response

/-- The prepare-requests loop of `each_connection_loop` (src/http_server.rs lines
153-166): while `decode` yields a request, dispatch it to the service, encode
either the filled response or the synthesized `internal_error_rsp`, and advance
the request buffer by the consumed length. `fuel` bounds the number of loop
passes of the model. Returns the final service state, the three buffers, and
the trace of requests handed to the service, in dispatch order. -/
def handle_requests {σ : Type} (decode : Decode) (call : ServiceCall σ) (encode : Encode) :
    Nat → σ → List Nat → List Nat → List Nat →
    Except IOError (σ × List Nat × List Nat × List Nat × List Request)
  | 0, s, req_buf, rsp_buf, body_buf => .ok (s, req_buf, rsp_buf, body_buf, [])
  | fuel + 1, s, req_buf, rsp_buf, body_buf =>
    match decode req_buf with
    | .error e => .error e
    | .ok none => .ok (s, req_buf, rsp_buf, body_buf, [])
    | .ok (some req) =>
      match call s req (Response.new body_buf) with
      | (s2, .ok rsp) =>
        match handle_requests decode call encode fuel s2 (req_buf.drop req.len)
            (rsp_buf ++ encode rsp) rsp.body with
        | .ok (sf, rb, sb, bb, tr) => .ok (sf, rb, sb, bb, req :: tr)
        | .error e => .error e
      | (s2, .error e) =>
        let err_rsp := internal_error_rsp e body_buf
        match handle_requests decode call encode fuel s2 (req_buf.drop req.len)
            (rsp_buf ++ encode err_rsp) err_rsp.body with
        | .ok (sf, rb, sb, bb, tr) => .ok (sf, rb, sb, bb, req :: tr)
        | .error e2 => .error e2

/-- The guard `if read_cnt > 0` around the prepare-requests loop
(src/http_server.rs line 153): with zero bytes read the decode/dispatch phase is
skipped whole. -/
def dispatch_phase {σ : Type} (decode : Decode) (call : ServiceCall σ) (encode : Encode)
    (fuel : Nat) (s : σ) (read_cnt : Nat) (req_buf rsp_buf body_buf : List Nat) :
    Except IOError (σ × List Nat × List Nat × List Nat × List Request) :=
  if 0 < read_cnt then handle_requests decode call encode fuel s req_buf rsp_buf body_buf
  else .ok (s, req_buf, rsp_buf, body_buf, [])

/-- The request-buffer view `reserve_buf` is applied to at the top of each loop
pass (src/http_server.rs line 149). -/
def conn_reserved (st : ConnState) : BytesBuf :=
  reserve_buf { off := st.req_off, len := st.req_buf.length, allocCap := st.req_alloc }

/-- The free tail size `nonblock_read` fills: capacity after `reserve_buf` minus
the bytes already buffered. -/
def readFree (st : ConnState) : Nat := (conn_reserved st).capacity - st.req_buf.length

/-- One pass of `each_connection_loop` (src/http_server.rs lines 143-172):
`reserve_buf` on the request buffer, `nonblock_read`, the guarded
decode/dispatch phase, `nonblock_write` of the response buffer. `reset_io` and
`wait_io` only talk to the scheduler and have no effect on this state. Errors
of any step propagate and end the loop; the trace lists the requests handed to
the service during this pass, in dispatch order. -/
def connection_iter {σ : Type} (decode : Decode) (call : ServiceCall σ) (encode : Encode)
    (readEvents : List ReadEvent) (writeEvents : List WriteEvent) (fuel : Nat)
    (s : σ) (st : ConnState) :
    Except IOError (σ × ConnState × List Request) :=
  match nonblock_read readEvents (readFree st) st.req_buf with
  | .error e => .error e
  | .ok (read_cnt, req_buf1) =>
    match dispatch_phase decode call encode fuel s read_cnt req_buf1 st.rsp_buf
        st.body_buf with
    | .error e => .error e
    | .ok (s2, req_buf2, rsp_buf2, body_buf2, tr) =>
      match nonblock_write writeEvents rsp_buf2 with
      | .error e => .error e
      | .ok (_, rsp_buf3) =>
        .ok (s2,
          { req_buf := req_buf2
            req_off := (conn_reserved st).off + (req_buf1.length - req_buf2.length)
            req_alloc := (conn_reserved st).allocCap
            rsp_buf := rsp_buf3
            body_buf := body_buf2 }, tr)

/-- What the connection task does with the loop result (src/http_server.rs lines
60-63): keep the socket as is on `Ok`, shut it down in both directions on `Err`. -/
inductive ShutdownAction where
  | keepOpen
  | both
deriving DecidableEq

/-- The connection task wrapper of `HttpServiceFactory::start` (src/http_server.rs
lines 60-63): if `each_connection_loop` returned an error, log it and
`stream.shutdown(Shutdown::Both)`. -/
def conn_task_finish (r : Except IOError Unit) : ShutdownAction :=
  match r with
  | .ok _ => ShutdownAction.keepOpen
  | .error _ => ShutdownAction.both

/-- An accepted socket, identified by its raw file descriptor. -/
structure IncomingConn where
  fd : Nat
deriving DecidableEq

/-- One result of `listener.incoming()`: an accepted socket or an accept error. -/
abbrev AcceptEvent := Except IOError IncomingConn

/-- A spawned connection task: the coroutine id it was built with and the service
instance it carries. -/
structure SpawnedTask (ς : Type) where
  id : Nat
  service : ς
deriving DecidableEq

/-- The accept loop of `HttpServiceFactory::start` (src/http_server.rs lines
49-66): `t_c!` logs an accept error and continues with the next accept; for an
accepted stream, `id` is the raw file descriptor, the service is created by
`new_service id` inside the listener itself, and only then is the connection
task spawned carrying that service. -/
def listener_loop {ς : Type} (new_service : Nat → ς) :
    List AcceptEvent → List (SpawnedTask ς)
  | [] => []
  | .error _ :: rest => listener_loop new_service rest
  | .ok stream :: rest =>
    { id := stream.fd, service := new_service stream.fd } ::
      listener_loop new_service rest

/-- Concatenation of byte chunks. -/
def concatBytes : List (List Nat) → List Nat
  | [] => []
  | b :: l => b ++ concatBytes l

/-- The bytes of a list of concatenated request frames. -/
def frames_bytes : List Request → List Nat
  | [] => []
  | f :: l => f.data ++ frames_bytes l

/-- Specification-side view of one dispatch: the wire bytes appended to the
response buffer for one request, per section 4.3: the encoded filled response
on success, the encoded synthesized 500 response on failure. -/
def dispatch_rsp {σ : Type} (call : ServiceCall σ) (encode : Encode) (s : σ)
    (req : Request) : List Nat :=
  match call s req (Response.new []) with
  | (_, .ok rsp) => encode rsp
  | (_, .error e) => encode (internal_error_rsp e [])

/-- Specification-side view of one dispatch: the service state after it. -/
def dispatch_next {σ : Type} (call : ServiceCall σ) (s : σ) (req : Request) : σ :=
  (call s req (Response.new [])).1

/-- Specification-side view of one dispatch: the content the body-scratch buffer
is left with. -/
def dispatch_body {σ : Type} (call : ServiceCall σ) (s : σ) (req : Request) : List Nat :=
  match call s req (Response.new []) with
  | (_, .ok rsp) => rsp.body
  | (_, .error e) => (internal_error_rsp e []).body

/-- Service state after dispatching a list of requests in order. -/
def service_state {σ : Type} (call : ServiceCall σ) : σ → List Request → σ
  | s, [] => s
  | s, r :: rest => service_state call (dispatch_next call s r) rest

/-- The per-request response chunks for a list of requests dispatched in order:
one encoded response per request, success or synthesized 500. -/
def service_responses {σ : Type} (call : ServiceCall σ) (encode : Encode) :
    σ → List Request → List (List Nat)
  | _, [] => []
  | s, r :: rest =>
    dispatch_rsp call encode s r ::
      service_responses call encode (dispatch_next call s r) rest

/-- The body-scratch buffer content after dispatching a list of requests in order. -/
def service_body {σ : Type} (call : ServiceCall σ) : σ → List Nat → List Request → List Nat
  | _, b, [] => b
  | s, _, r :: rest => service_body call (dispatch_next call s r) (dispatch_body call s r) rest

/-- A concrete codec used to instantiate the boundary in witnesses: a frame is a
length byte followed by that many payload bytes. -/
def demoDecode (buf : List Nat) : Except IOError (Option Request) :=
  match buf with
  | [] => .ok none
  | n :: rest => if n ≤ rest.length then .ok (some ⟨n :: rest.take n⟩) else .ok none

/-- A concrete encoder used in witnesses. -/
def demoEncode (rsp : Response) : List Nat := strBytes rsp.status.1 ++ rsp.body

/-- A concrete always-succeeding service used in witnesses; its state counts calls. -/
def demoCall (s : Nat) (req : Request) (rsp : Response) : Nat × Except IOError Response :=
  (s + 1, .ok { rsp with body := req.data })

/-- A concrete service that fails on its first call and succeeds afterwards, used
in witnesses. -/
def demoErrCall (s : Nat) (req : Request) (rsp : Response) : Nat × Except IOError Response :=
  if s = 0 then (s + 1, .error { kind := IOErrorKind.other, msg := "boom" })
  else (s + 1, .ok { rsp with body := req.data })

/-- Two concrete pipelined frames for witnesses. -/
def demoFrames : List Request := [⟨[2, 10, 11]⟩, ⟨[1, 20]⟩]

/-- A fresh connection state as `each_connection_loop` builds it
(src/http_server.rs lines 139-141): empty buffers with a `BUF_LEN` allocation. -/
def demoState : ConnState :=
  { req_buf := [], req_off := 0, req_alloc := BUF_LEN, rsp_buf := [], body_buf := [] }

/-- Total bytes delivered by a sequence of successful read results. -/
def readBytesCount : List ReadEvent → Nat
  | [] => 0
  | .ok c :: rest => c.length + readBytesCount rest
  | .error _ :: rest => readBytesCount rest

/-- Total bytes accepted by a sequence of successful write results. -/
def writeBytesCount : List WriteEvent → Nat
  | [] => 0
  | .ok n :: rest => n + writeBytesCount rest
  | .error _ :: rest => writeBytesCount rest

/-! ## Helper lemmas -/

theorem drop_append_self (a : List Nat) : ∀ b : List Nat, (a ++ b).drop a.length = b := by
  induction a with
  | nil => intro b; simp
  | cons x xs ih =>
    intro b
    simp only [List.cons_append, List.length_cons, List.drop_succ_cons]
    exact ih b

theorem nonblock_write_nil (b : List Nat) : nonblock_write [] b = .ok (0, b) := by
  by_cases h : b.length = 0
  · simp [nonblock_write, h]
  · simp [nonblock_write, h, nonblock_write_go]

theorem service_responses_length {σ : Type} (call : ServiceCall σ) (encode : Encode) :
    ∀ (s : σ) (reqs : List Request),
    (service_responses call encode s reqs).length = reqs.length := by
  intro s reqs
  induction reqs generalizing s with
  | nil => simp [service_responses]
  | cons r rest ih => simp [service_responses, ih]

theorem nonblock_read_go_zero (free : Nat) (rest : List ReadEvent) :
    ∀ (pre : List ReadEvent) (cnt : Nat) (acc : List Nat),
    (∀ ev ∈ pre, ∃ c, ev = .ok c ∧ c ≠ []) →
    cnt + readBytesCount pre < free →
    nonblock_read_go free (pre ++ .ok [] :: rest) cnt acc = .error brokenPipeClosed := by
  intro pre
  induction pre with
  | nil =>
    intro cnt acc _ hlt
    simp only [readBytesCount, Nat.add_zero] at hlt
    simp [nonblock_read_go, hlt]
  | cons ev pre2 ih =>
    intro cnt acc hall hlt
    obtain ⟨c, hc, hne⟩ := hall ev (by simp)
    subst hc
    simp only [readBytesCount] at hlt
    have hcnt : cnt < free := by omega
    simp only [List.cons_append, nonblock_read_go, hcnt, if_pos, hne, if_neg,
      not_false_eq_true, if_true]
    exact ih (cnt + c.length) (acc ++ c)
      (fun e2 he2 => hall e2 (List.mem_cons_of_mem _ he2)) (by omega)

theorem nonblock_write_go_zero (len : Nat) (rest : List WriteEvent) :
    ∀ (pre : List WriteEvent) (written : Nat),
    (∀ ev ∈ pre, ∃ n, ev = .ok n ∧ n ≠ 0) →
    written + writeBytesCount pre < len →
    nonblock_write_go len (pre ++ .ok 0 :: rest) written = .error brokenPipeClosed := by
  intro pre
  induction pre with
  | nil =>
    intro written _ hlt
    simp only [writeBytesCount, Nat.add_zero] at hlt
    simp [nonblock_write_go, hlt]
  | cons ev pre2 ih =>
    intro written hall hlt
    obtain ⟨n, hn, hne⟩ := hall ev (by simp)
    subst hn
    simp only [writeBytesCount] at hlt
    have hcnt : written < len := by omega
    simp only [List.cons_append, nonblock_write_go, hcnt, if_pos, hne, if_neg,
      not_false_eq_true, if_true]
    exact ih (written + n)
      (fun e2 he2 => hall e2 (List.mem_cons_of_mem _ he2)) (by omega)

theorem handle_requests_step (σ : Type) (decode : Decode) (call : ServiceCall σ)
    (encode : Encode) (fuel : Nat) (s : σ) (req_buf rsp_buf body_buf : List Nat) :
    handle_requests decode call encode (fuel + 1) s req_buf rsp_buf body_buf =
      match decode req_buf with
      | .error e => .error e
      | .ok none => .ok (s, req_buf, rsp_buf, body_buf, [])
      | .ok (some req) =>
        match call s req (Response.new body_buf) with
        | (s2, .ok rsp) =>
          match handle_requests decode call encode fuel s2 (req_buf.drop req.len)
              (rsp_buf ++ encode rsp) rsp.body with
          | .ok (sf, rb, sb, bb, tr) => .ok (sf, rb, sb, bb, req :: tr)
          | .error e => .error e
        | (s2, .error e) =>
          let err_rsp := internal_error_rsp e body_buf
          match handle_requests decode call encode fuel s2 (req_buf.drop req.len)
              (rsp_buf ++ encode err_rsp) err_rsp.body with
          | .ok (sf, rb, sb, bb, tr) => .ok (sf, rb, sb, bb, req :: tr)
          | .error e2 => .error e2 := rfl

theorem nonblock_read_single (bytes : List Nat) (free : Nat) (buf : List Nat)
    (h0 : bytes ≠ []) (hle : bytes.length ≤ free) :
    nonblock_read [.ok bytes] free buf = .ok (bytes.length, buf ++ bytes) := by
  have hfree : 0 < free := lt_of_lt_of_le (List.length_pos.mpr h0) hle
  simp [nonblock_read, nonblock_read_go, hfree, h0]

/-- The decode loop on a buffer of whole frames equals the per-frame dispatch of
the specification: it consumes the buffer completely, calls the service once per
frame in order, and appends one encoded response per frame in the same order. -/
theorem handle_requests_drains (σ : Type) (decode : Decode) (call : ServiceCall σ)
    (encode : Encode) (frames : List Request) :
    ∀ (s : σ) (rsp_buf body_buf : List Nat),
    (∀ i, i < frames.length →
      decode (frames_bytes (frames.drop i)) = .ok (some (frames.getD i ⟨[]⟩))) →
    decode [] = .ok none →
    handle_requests decode call encode (frames.length + 1) s (frames_bytes frames)
        rsp_buf body_buf
      = .ok (service_state call s frames, [],
             rsp_buf ++ concatBytes (service_responses call encode s frames),
             service_body call s body_buf frames, frames) := by
  induction frames with
  | nil =>
    intro s rsp_buf body_buf _ h2
    rw [handle_requests_step]
    have hfb : frames_bytes ([] : List Request) = [] := rfl
    rw [hfb, h2]
    simp [service_state, service_responses, service_body, concatBytes]
  | cons f rest ih =>
    intro s rsp_buf body_buf h1 h2
    have hd : decode (frames_bytes (f :: rest)) = .ok (some f) := by
      have h := h1 0 (by simp)
      simpa using h
    have h1r : ∀ i, i < rest.length →
        decode (frames_bytes (rest.drop i)) = .ok (some (rest.getD i ⟨[]⟩)) := by
      intro i hi
      have h := h1 (i + 1) (by simpa using Nat.succ_lt_succ hi)
      simpa using h
    have hdrop : (frames_bytes (f :: rest)).drop f.len = frames_bytes rest := by
      simp only [frames_bytes, Request.len]
      exact drop_append_self f.data (frames_bytes rest)
    simp only [List.length_cons]
    rw [handle_requests_step, hd]
    rcases hc : call s f (Response.new body_buf) with ⟨s2, res⟩
    have hc0 : call s f (Response.new []) = (s2, res) := hc
    rcases res with e | rsp
    · simp only [hc, hdrop]
      rw [ih s2 (rsp_buf ++ encode (internal_error_rsp e body_buf))
        (internal_error_rsp e body_buf).body h1r h2]
      have herr : internal_error_rsp e body_buf = internal_error_rsp e [] := rfl
      simp [service_state, service_responses, service_body, dispatch_next,
        dispatch_rsp, dispatch_body, hc0, concatBytes, herr]
    · simp only [hc, hdrop]
      rw [ih s2 (rsp_buf ++ encode rsp) rsp.body h1r h2]
      simp [service_state, service_responses, service_body, dispatch_next,
        dispatch_rsp, dispatch_body, hc0, concatBytes]

/-- One loop pass whose single read delivers a buffer of whole frames: the read
succeeds, the dispatch loop drains every frame, and the pass ends with the
request buffer empty and the response buffer extended by the per-frame encoded
responses, in order. -/
theorem connection_iter_drains (σ : Type) (decode : Decode) (call : ServiceCall σ)
    (encode : Encode) (frames : List Request) (s : σ) (st : ConnState)
    (hreq : st.req_buf = [])
    (hne : frames_bytes frames ≠ [])
    (hfree : (frames_bytes frames).length ≤ readFree st)
    (h1 : ∀ i, i < frames.length →
      decode (frames_bytes (frames.drop i)) = .ok (some (frames.getD i ⟨[]⟩)))
    (h2 : decode [] = .ok none) :
    connection_iter decode call encode [.ok (frames_bytes frames)] []
        (frames.length + 1) s st
      = .ok (service_state call s frames,
          { req_buf := [],
            req_off := (conn_reserved st).off + (frames_bytes frames).length,
            req_alloc := (conn_reserved st).allocCap,
            rsp_buf := st.rsp_buf ++ concatBytes (service_responses call encode s frames),
            body_buf := service_body call s st.body_buf frames }, frames) := by
  have hread : nonblock_read [.ok (frames_bytes frames)] (readFree st) st.req_buf
      = .ok ((frames_bytes frames).length, frames_bytes frames) := by
    rw [hreq]
    simpa using nonblock_read_single (frames_bytes frames) (readFree st) [] hne hfree
  have hpos : 0 < (frames_bytes frames).length := List.length_pos.mpr hne
  have hh := handle_requests_drains σ decode call encode frames s st.rsp_buf st.body_buf h1 h2
  simp only [connection_iter, hread, dispatch_phase, hpos, if_pos, hh,
    nonblock_write_nil]
  simp [hreq]

theorem service_responses_getD (σ : Type) (call : ServiceCall σ) (encode : Encode) :
    ∀ (reqs : List Request) (s : σ) (k : Nat), k < reqs.length →
    (service_responses call encode s reqs).getD k []
      = dispatch_rsp call encode (service_state call s (reqs.take k))
          (reqs.getD k ⟨[]⟩) := by
  intro reqs
  induction reqs with
  | nil => intro s k hk; simp at hk
  | cons r rest ih =>
    intro s k hk
    cases k with
    | zero =>
      simp [service_responses, service_state]
    | succ k2 =>
      have hk2 : k2 < rest.length := by simpa using hk
      simp only [service_responses, List.getD_cons_succ, List.take_succ_cons,
        service_state]
      exact ih (dispatch_next call s r) k2 hk2

/-! ## Claim theorems -/

/-- C5. If `nonblock_write` succeeds having written `w ≤ B` of the `B` buffered
bytes, the buffer afterwards holds exactly the original bytes with the first `w`
removed, byte for byte and in order: nothing is duplicated and nothing is
dropped, and the unaccepted suffix is what the next write attempt starts from. -/
theorem write_suffix_resumption (events : List WriteEvent) (buf : List Nat)
    (w : Nat) (buf2 : List Nat)
    (h : nonblock_write events buf = .ok (w, buf2)) (_hw : w ≤ buf.length) :
    buf2 = buf.drop w ∧ buf.take w ++ buf2 = buf ∧ buf2.length = buf.length - w := by
  have hd : buf2 = buf.drop w := by
    by_cases hlen : buf.length = 0
    · simp only [nonblock_write, hlen, if_pos] at h
      obtain ⟨h1, h2⟩ := Prod.mk.injEq .. ▸ Except.ok.inj h
      simp [← h1, ← h2]
    · simp only [nonblock_write, hlen, if_neg] at h
      rcases hg : nonblock_write_go buf.length events 0 with e | written
      · rw [hg] at h; cases h
      · rw [hg] at h
        obtain ⟨h1, h2⟩ := Prod.mk.injEq .. ▸ Except.ok.inj h
        simp [← h1, ← h2]
  refine ⟨hd, ?_, ?_⟩
  · rw [hd]; exact List.take_append_drop w buf
  · rw [hd]; exact List.length_drop w buf

/-- C5 witness: a socket that accepts 2 of 5 bytes and then reports WouldBlock
leaves exactly the last 3 bytes queued, in order. -/
theorem write_suffix_resumption_witness :
    ([3, 4, 5] : List Nat) = [1, 2, 3, 4, 5].drop 2 ∧
    [1, 2, 3, 4, 5].take 2 ++ [3, 4, 5] = [1, 2, 3, 4, 5] ∧
    ([3, 4, 5] : List Nat).length = [1, 2, 3, 4, 5].length - 2 :=
  write_suffix_resumption
    [.ok 2, .error { kind := IOErrorKind.wouldBlock, msg := "wb" }]
    [1, 2, 3, 4, 5] 2 [3, 4, 5] (by rfl) (by decide)

/-- C6. For a connection buffer (allocated with `BUF_LEN` bytes, as
`each_connection_loop` creates all three buffers): `reserve_buf` leaves the
buffer unchanged when free space is at or above the 1 KiB low-water mark, it
grows the capacity only when free space has dropped below 1 KiB, and when it
grows, the capacity becomes the fixed `BUF_LEN` (32 KiB) high-water target in
one step rather than incrementally. -/
theorem reserve_buf_policy (b : BytesBuf) (hA : b.allocCap = BUF_LEN)
    (hlen : b.len ≤ b.capacity) :
    (1024 ≤ b.capacity - b.len → reserve_buf b = b) ∧
    (reserve_buf b ≠ b → b.capacity - b.len < 1024) ∧
    (b.capacity < 1024 → (reserve_buf b).capacity = BUF_LEN) := by
  have hcap : b.capacity = b.allocCap - b.off := rfl
  refine ⟨?_, ?_, ?_⟩
  · intro hfree
    have : ¬ b.capacity < 1024 := by omega
    simp [reserve_buf, this]
  · intro hne
    by_contra hge
    have : ¬ b.capacity < 1024 := by omega
    simp [reserve_buf, this] at hne
  · intro hlt
    have h1 : ¬ (BUF_LEN - b.capacity ≤ b.capacity - b.len) := by
      simp only [BUF_LEN] at *; omega
    have h2 : b.len + (BUF_LEN - b.capacity) ≤ b.allocCap := by
      simp only [BUF_LEN] at *; omega
    simp only [reserve_buf, hlt, if_pos, BytesBuf.reserve, h1, if_neg, h2, if_true,
      not_false_eq_true]
    simp [BytesBuf.capacity, hA]

/-- C6 witness: a buffer advanced to 968 bytes of capacity holding 100 unread
bytes is below the low-water mark, and one `reserve_buf` brings its capacity to
exactly `BUF_LEN`. -/
theorem reserve_buf_policy_witness :
    (reserve_buf { off := 31800, len := 100, allocCap := 32768 }).capacity = BUF_LEN :=
  (reserve_buf_policy { off := 31800, len := 100, allocCap := 32768 } rfl
    (by decide)).2.2 (by decide)

/-- C10. When the response buffer is empty, `nonblock_write` returns `Ok(0)`
without looking at the socket, whatever results write calls would produce; and
any error `nonblock_write` returns (the zero-bytes `BrokenPipe` one included)
can only arise when the buffer held bytes to send. -/
theorem empty_write_no_broken_pipe :
    (∀ events : List WriteEvent, nonblock_write events [] = .ok (0, [])) ∧
    (∀ (events : List WriteEvent) (buf : List Nat) (e : IOError),
      nonblock_write events buf = .error e → buf ≠ []) := by
  constructor
  · intro events; rfl
  · intro events buf e h hbuf
    subst hbuf
    rw [(by rfl : nonblock_write events [] = .ok (0, []))] at h
    cases h

/-- C10 witness: a write pass whose first socket write reports zero bytes on a
one-byte buffer errors, and indeed that buffer is not empty. -/
theorem empty_write_no_broken_pipe_witness : ([1] : List Nat) ≠ [] :=
  empty_write_no_broken_pipe.2 [.ok 0] [1] brokenPipeClosed (by rfl)

/-- C8. The listener spawns exactly one connection task per accepted socket, in
accept order: each task carries the service built by `new_service fd`, called
once with the identity derived from the raw socket descriptor, which is also
the id of the spawned task; failed accepts spawn nothing. The service value is
created inside the listener before the task carrying it exists. -/
theorem factory_once_per_connection (ς : Type) (new_service : Nat → ς)
    (events : List AcceptEvent) :
    listener_loop new_service events =
      (events.filterMap fun ev =>
        match ev with
        | .ok c => some c.fd
        | .error _ => none).map
        fun fd => { id := fd, service := new_service fd } := by
  induction events with
  | nil => rfl
  | cons ev rest ih =>
    cases ev with
    | ok c => simp [listener_loop, List.filterMap_cons, ih]
    | error e => simp [listener_loop, List.filterMap_cons, ih]

/-- C9. An accept error is skipped and never terminates the listener: the loop
behaves as if the failed accept were absent, wherever in the accept sequence it
occurs, and connections accepted after it are still served. -/
theorem accept_error_resilience (ς : Type) (new_service : Nat → ς) (e : IOError)
    (rest : List AcceptEvent) :
    listener_loop new_service (.error e :: rest) = listener_loop new_service rest ∧
    ∀ pre : List AcceptEvent,
      listener_loop new_service (pre ++ .error e :: rest) =
        listener_loop new_service (pre ++ rest) := by
  constructor
  · rfl
  · intro pre
    induction pre with
    | nil => rfl
    | cons ev pre2 ih =>
      cases ev with
      | ok c => simpa [listener_loop] using ih
      | error e2 => simpa [listener_loop] using ih

/-- C4. Zero-byte results mean the peer closed the connection: a read attempt
that returns zero bytes while bytes were still requested makes `nonblock_read`
return the terminal `BrokenPipe` error, a write attempt that accepts zero bytes
while bytes remained to send makes `nonblock_write` return the same terminal
error; a failed read makes the loop pass return that error at once, whatever
the decode, service, or pending writes would have done (so nothing further is
consumed or emitted); and the task wrapper answers any loop error with a
shutdown of both directions. -/
theorem zero_byte_broken_pipe :
    (∀ (free : Nat) (buf : List Nat) (pre rest : List ReadEvent),
      (∀ ev ∈ pre, ∃ c, ev = .ok c ∧ c ≠ []) →
      readBytesCount pre < free →
      nonblock_read (pre ++ .ok [] :: rest) free buf = .error brokenPipeClosed) ∧
    (∀ (buf : List Nat) (pre rest : List WriteEvent),
      (∀ ev ∈ pre, ∃ n, ev = .ok n ∧ n ≠ 0) →
      writeBytesCount pre < buf.length →
      nonblock_write (pre ++ .ok 0 :: rest) buf = .error brokenPipeClosed) ∧
    (∀ (σ : Type) (decode : Decode) (call : ServiceCall σ) (encode : Encode)
      (readEvents : List ReadEvent) (writeEvents : List WriteEvent) (fuel : Nat)
      (s : σ) (st : ConnState) (e : IOError),
      nonblock_read readEvents (readFree st) st.req_buf = .error e →
      connection_iter decode call encode readEvents writeEvents fuel s st = .error e) ∧
    (∀ e : IOError, conn_task_finish (.error e) = ShutdownAction.both) := by
  refine ⟨?_, ?_, ?_, ?_⟩
  · intro free buf pre rest hall hlt
    rw [nonblock_read, nonblock_read_go_zero free rest pre 0 [] hall (by omega)]
  · intro buf pre rest hall hlt
    have hlen : ¬ buf.length = 0 := by omega
    simp only [nonblock_write, hlen, if_neg, not_false_eq_true]
    rw [nonblock_write_go_zero buf.length rest pre 0 hall (by omega)]
  · intro σ decode call encode readEvents writeEvents fuel s st e h
    simp [connection_iter, h]
  · intro e; rfl

/-- C4 witness: a read pass that delivers one byte then zero bytes errors with
`BrokenPipe`; a write pass that accepts one byte then zero bytes errors the
same way; a loop pass whose very first read returns zero bytes ends with that
error; and the task wrapper shuts the socket down in both directions on it. -/
theorem zero_byte_broken_pipe_witness :
    nonblock_read [Except.ok [7], Except.ok []] 8 [] = Except.error brokenPipeClosed ∧
    nonblock_write [Except.ok 1, Except.ok 0] [5, 6, 7] = Except.error brokenPipeClosed ∧
    connection_iter demoDecode demoCall demoEncode [Except.ok []] [] 1 0 demoState
      = Except.error brokenPipeClosed ∧
    conn_task_finish (Except.error brokenPipeClosed) = ShutdownAction.both :=
  ⟨zero_byte_broken_pipe.1 8 [] [Except.ok [7]] []
      (by intro ev hev; rw [List.mem_singleton] at hev; subst hev; exact ⟨[7], rfl, by simp⟩)
      (by decide),
   zero_byte_broken_pipe.2.1 [5, 6, 7] [Except.ok 1] []
      (by intro ev hev; rw [List.mem_singleton] at hev; subst hev; exact ⟨1, rfl, by simp⟩)
      (by decide),
   zero_byte_broken_pipe.2.2.1 Nat demoDecode demoCall demoEncode [Except.ok []] [] 1 0
      demoState brokenPipeClosed (by rfl),
   zero_byte_broken_pipe.2.2.2 brokenPipeClosed⟩

/-- C7. Zero-read fast path: in a loop pass whose read returned zero new bytes
while no prior unread data remains buffered, the decode/dispatch phase is
skipped whole, whatever the decoder and the service would do: the service is
not invoked (the dispatch trace is empty), the request cursor is not advanced
(the request buffer stays empty), and the pass proceeds directly to writing
whatever output is buffered. -/
theorem zero_read_fast_path (σ : Type) (decode : Decode) (call : ServiceCall σ)
    (encode : Encode) (readEvents : List ReadEvent) (writeEvents : List WriteEvent)
    (fuel : Nat) (s : σ) (st : ConnState)
    (hbuf : st.req_buf = [])
    (hread : nonblock_read readEvents (readFree st) st.req_buf = .ok (0, st.req_buf)) :
    connection_iter decode call encode readEvents writeEvents fuel s st =
      match nonblock_write writeEvents st.rsp_buf with
      | .error e => .error e
      | .ok (_, rsp3) =>
        .ok (s,
          { req_buf := [], req_off := (conn_reserved st).off,
            req_alloc := (conn_reserved st).allocCap,
            rsp_buf := rsp3, body_buf := st.body_buf }, []) := by
  have hread2 : nonblock_read readEvents (readFree st) [] = .ok (0, []) := hbuf ▸ hread
  rcases hw : nonblock_write writeEvents st.rsp_buf with e | p
  · simp [connection_iter, hbuf, hread2, dispatch_phase, hw]
  · obtain ⟨n, rsp3⟩ := p
    simp [connection_iter, hbuf, hread2, dispatch_phase, hw]

/-- C7 witness: with an empty request buffer and a read pass that only reports
WouldBlock, the loop pass invokes nothing and goes straight to flushing the
three buffered response bytes, of which the socket accepts two. -/
theorem zero_read_fast_path_witness :
    connection_iter demoDecode demoCall demoEncode
      [Except.error { kind := IOErrorKind.wouldBlock, msg := "wb" }] [Except.ok 2] 1 0
      { req_buf := [], req_off := 0, req_alloc := BUF_LEN,
        rsp_buf := [9, 8, 7], body_buf := [] }
      = .ok (0,
          { req_buf := [], req_off := 0, req_alloc := BUF_LEN,
            rsp_buf := [7], body_buf := [] }, []) :=
  (zero_read_fast_path Nat demoDecode demoCall demoEncode
    [Except.error { kind := IOErrorKind.wouldBlock, msg := "wb" }] [Except.ok 2] 1 0
    { req_buf := [], req_off := 0, req_alloc := BUF_LEN,
      rsp_buf := [9, 8, 7], body_buf := [] } rfl (by rfl)).trans (by rfl)

/-- C1. Pipelining: when a single read with a positive byte count delivers N
complete concatenated request frames into the empty request buffer, the loop
pass invokes the service exactly N times, in arrival order (the dispatch trace
is the frame list itself), appends exactly N encoded responses to the response
buffer in that same order (one response chunk per frame, concatenated in frame
order), and advances the request buffer past each consumed frame, draining it
completely. -/
theorem pipelining_single_read (σ : Type) (decode : Decode) (call : ServiceCall σ)
    (encode : Encode) (frames : List Request) (s : σ) (st : ConnState)
    (hreq : st.req_buf = [])
    (hne : frames_bytes frames ≠ [])
    (hfree : (frames_bytes frames).length ≤ readFree st)
    (h1 : ∀ i, i < frames.length →
      decode (frames_bytes (frames.drop i)) = .ok (some (frames.getD i ⟨[]⟩)))
    (h2 : decode [] = .ok none) :
    connection_iter decode call encode [.ok (frames_bytes frames)] []
        (frames.length + 1) s st
      = .ok (service_state call s frames,
          { req_buf := [],
            req_off := (conn_reserved st).off + (frames_bytes frames).length,
            req_alloc := (conn_reserved st).allocCap,
            rsp_buf := st.rsp_buf ++ concatBytes (service_responses call encode s frames),
            body_buf := service_body call s st.body_buf frames }, frames)
    ∧ (service_responses call encode s frames).length = frames.length :=
  ⟨connection_iter_drains σ decode call encode frames s st hreq hne hfree h1 h2,
   service_responses_length call encode s frames⟩

/-- C1 witness: two concatenated frames arriving in one read produce two service
calls in order and two responses in order, with the request buffer drained. -/
theorem pipelining_single_read_witness :
    connection_iter demoDecode demoCall demoEncode [.ok (frames_bytes demoFrames)] []
        (demoFrames.length + 1) 0 demoState
      = .ok (service_state demoCall 0 demoFrames,
          { req_buf := [],
            req_off := (conn_reserved demoState).off + (frames_bytes demoFrames).length,
            req_alloc := (conn_reserved demoState).allocCap,
            rsp_buf := demoState.rsp_buf ++
              concatBytes (service_responses demoCall demoEncode 0 demoFrames),
            body_buf := service_body demoCall 0 demoState.body_buf demoFrames },
          demoFrames)
    ∧ (service_responses demoCall demoEncode 0 demoFrames).length = demoFrames.length :=
  pipelining_single_read Nat demoDecode demoCall demoEncode demoFrames 0 demoState rfl
    (by decide) (by decide) (by decide) (by rfl)

/-- C2. For every loop pass, the pass ends with an error exactly when
`nonblock_read`, the decode/dispatch phase (whose only error source is the
decoder, itself an I/O-result operation), or `nonblock_write` fails — and a
`Service.call` error never makes the pass fail: whenever the decoder itself
never errors, the dispatch phase succeeds for every service, a service whose
every call errors included. -/
theorem connection_error_sources (σ : Type) (decode : Decode) (call : ServiceCall σ)
    (encode : Encode) (readEvents : List ReadEvent) (writeEvents : List WriteEvent)
    (fuel : Nat) (s : σ) (st : ConnState) (e : IOError) :
    (connection_iter decode call encode readEvents writeEvents fuel s st = .error e →
      (nonblock_read readEvents (readFree st) st.req_buf = .error e ∨
       (∃ cnt buf1,
         nonblock_read readEvents (readFree st) st.req_buf = .ok (cnt, buf1) ∧
         dispatch_phase decode call encode fuel s cnt buf1 st.rsp_buf st.body_buf
           = .error e) ∨
       (∃ cnt buf1 s2 rb2 sb2 bb2 tr,
         nonblock_read readEvents (readFree st) st.req_buf = .ok (cnt, buf1) ∧
         dispatch_phase decode call encode fuel s cnt buf1 st.rsp_buf st.body_buf
           = .ok (s2, rb2, sb2, bb2, tr) ∧
         nonblock_write writeEvents sb2 = .error e))) ∧
    (nonblock_read readEvents (readFree st) st.req_buf = .error e →
      connection_iter decode call encode readEvents writeEvents fuel s st = .error e) ∧
    (∀ cnt buf1,
      nonblock_read readEvents (readFree st) st.req_buf = .ok (cnt, buf1) →
      dispatch_phase decode call encode fuel s cnt buf1 st.rsp_buf st.body_buf
        = .error e →
      connection_iter decode call encode readEvents writeEvents fuel s st = .error e) ∧
    (∀ cnt buf1 s2 rb2 sb2 bb2 tr,
      nonblock_read readEvents (readFree st) st.req_buf = .ok (cnt, buf1) →
      dispatch_phase decode call encode fuel s cnt buf1 st.rsp_buf st.body_buf
        = .ok (s2, rb2, sb2, bb2, tr) →
      nonblock_write writeEvents sb2 = .error e →
      connection_iter decode call encode readEvents writeEvents fuel s st = .error e) ∧
    ((∀ b, ∃ o, decode b = .ok o) →
      ∀ (fuel2 : Nat) (s2 : σ) (rb sb bb : List Nat),
        ∃ r, handle_requests decode call encode fuel2 s2 rb sb bb = .ok r) := by
  refine ⟨?_, ?_, ?_, ?_, ?_⟩
  · intro h
    rcases hr : nonblock_read readEvents (readFree st) st.req_buf with er | p
    · simp only [connection_iter, hr] at h
      injection h with h2
      subst h2
      exact Or.inl rfl
    · obtain ⟨cnt, buf1⟩ := p
      rcases hd : dispatch_phase decode call encode fuel s cnt buf1 st.rsp_buf
          st.body_buf with ed | q
      · simp only [connection_iter, hr, hd] at h
        injection h with h2
        subst h2
        exact Or.inr (Or.inl ⟨cnt, buf1, rfl, hd⟩)
      · obtain ⟨s2, rb2, sb2, bb2, tr⟩ := q
        rcases hw : nonblock_write writeEvents sb2 with ew | w
        · simp only [connection_iter, hr, hd, hw] at h
          injection h with h2
          subst h2
          exact Or.inr (Or.inr ⟨cnt, buf1, s2, rb2, sb2, bb2, tr, rfl, hd, hw⟩)
        · obtain ⟨n, rsp3⟩ := w
          simp only [connection_iter, hr, hd, hw] at h
          exact Except.noConfusion h
  · intro hr
    simp [connection_iter, hr]
  · intro cnt buf1 hr hd
    simp [connection_iter, hr, hd]
  · intro cnt buf1 s2 rb2 sb2 bb2 tr hr hd hw
    simp [connection_iter, hr, hd, hw]
  · intro hdec fuel2
    induction fuel2 with
    | zero => intro s2 rb sb bb; exact ⟨_, rfl⟩
    | succ n ih =>
      intro s2 rb sb bb
      obtain ⟨o, ho⟩ := hdec rb
      match o with
      | none => exact ⟨_, by rw [handle_requests_step, ho]⟩
      | some req =>
        rcases hc : call s2 req (Response.new bb) with ⟨s3, res⟩
        rcases res with e2 | rsp
        · obtain ⟨r, hrec⟩ := ih s3 (rb.drop req.len)
            (sb ++ encode (internal_error_rsp e2 bb)) (internal_error_rsp e2 bb).body
          exact ⟨_, by rw [handle_requests_step, ho]; simp only [hc, hrec]; rfl⟩
        · obtain ⟨r, hrec⟩ := ih s3 (rb.drop req.len) (sb ++ encode rsp) rsp.body
          exact ⟨_, by rw [handle_requests_step, ho]; simp only [hc, hrec]; rfl⟩

/-- C2 witness: with a decoder that never errors and a service whose first call
errors, the dispatch phase still succeeds on the two pipelined demo frames. -/
theorem connection_error_sources_witness :
    ∃ r, handle_requests demoDecode demoErrCall demoEncode 3 0
        (frames_bytes demoFrames) [] [] = .ok r :=
  (connection_error_sources Nat demoDecode demoErrCall demoEncode [] [] 3 0
      demoState brokenPipeClosed).2.2.2.2
    (fun b => by
      cases b with
      | nil => exact ⟨none, rfl⟩
      | cons n rest =>
        by_cases h : n ≤ rest.length
        · exact ⟨some ⟨n :: rest.take n⟩, by simp [demoDecode, h]⟩
        · exact ⟨none, by simp [demoDecode, h]⟩)
    3 0 (frames_bytes demoFrames) [] []

/-- C3. Service-fault isolation: on a pipelined batch of whole frames, the pass
succeeds (the connection is not closed) with one response chunk per request in
arrival order; the chunk at every position whose `Service.call` returned an
error is the encoding of the synthesized `internal_error_rsp`, while the chunk
at every position whose call succeeded is the encoding of the filled response —
so a failure at position K leaves every other position correct and ordered; and
the synthesized response clears the body buffer, carries status
`500 Internal Server Error` and has exactly the textual description of the
error as its body. -/
theorem service_fault_isolation (σ : Type) (decode : Decode) (call : ServiceCall σ)
    (encode : Encode) (frames : List Request) (s : σ) (st : ConnState)
    (hreq : st.req_buf = [])
    (hne : frames_bytes frames ≠ [])
    (hfree : (frames_bytes frames).length ≤ readFree st)
    (h1 : ∀ i, i < frames.length →
      decode (frames_bytes (frames.drop i)) = .ok (some (frames.getD i ⟨[]⟩)))
    (h2 : decode [] = .ok none) :
    (connection_iter decode call encode [.ok (frames_bytes frames)] []
        (frames.length + 1) s st
      = .ok (service_state call s frames,
          { req_buf := [],
            req_off := (conn_reserved st).off + (frames_bytes frames).length,
            req_alloc := (conn_reserved st).allocCap,
            rsp_buf := st.rsp_buf ++ concatBytes (service_responses call encode s frames),
            body_buf := service_body call s st.body_buf frames }, frames)) ∧
    (∀ k, k < frames.length → ∀ e2 : IOError,
      (call (service_state call s (frames.take k)) (frames.getD k ⟨[]⟩)
          (Response.new [])).2 = .error e2 →
      (service_responses call encode s frames).getD k []
        = encode (internal_error_rsp e2 [])) ∧
    (∀ k, k < frames.length → ∀ rsp : Response,
      (call (service_state call s (frames.take k)) (frames.getD k ⟨[]⟩)
          (Response.new [])).2 = .ok rsp →
      (service_responses call encode s frames).getD k [] = encode rsp) ∧
    (∀ (e2 : IOError) (buf : List Nat),
      internal_error_rsp e2 buf
        = { status := ("500", "Internal Server Error"), headers := [],
            body := strBytes e2.toString }) := by
  refine ⟨connection_iter_drains σ decode call encode frames s st hreq hne hfree h1 h2,
    ?_, ?_, ?_⟩
  · intro k hk e2 hcall
    rw [service_responses_getD σ call encode frames s k hk]
    unfold dispatch_rsp
    rcases hp : call (service_state call s (frames.take k)) (frames.getD k ⟨[]⟩)
        (Response.new []) with ⟨s3, res⟩
    rw [hp] at hcall
    dsimp only at hcall
    subst hcall
    rfl
  · intro k hk rsp hcall
    rw [service_responses_getD σ call encode frames s k hk]
    unfold dispatch_rsp
    rcases hp : call (service_state call s (frames.take k)) (frames.getD k ⟨[]⟩)
        (Response.new []) with ⟨s3, res⟩
    rw [hp] at hcall
    dsimp only at hcall
    subst hcall
    rfl
  · intro e2 buf
    rfl

/-- C3 witness: a service that fails on the first of the two demo frames yields
as first response chunk exactly the encoded synthesized 500 response for its
error. -/
theorem service_fault_isolation_witness :
    (service_responses demoErrCall demoEncode 0 demoFrames).getD 0 []
      = demoEncode (internal_error_rsp { kind := IOErrorKind.other, msg := "boom" } []) :=
  (service_fault_isolation Nat demoDecode demoErrCall demoEncode demoFrames 0 demoState
      rfl (by decide) (by decide) (by decide) (by rfl)).2.1 0 (by decide)
    { kind := IOErrorKind.other, msg := "boom" } (by rfl)

end MayMinihttp
